import Mathlib

/-!
Verification of the marathon autoscaler decision engine.

Shallow embedding of the Python sources:
  * `marathon_autoscaler.py` — `Autoscaler.autoscale`, `Autoscaler.scale_app`,
    `Autoscaler.run` (hysteresis counters, target computation, control loop);
  * `autoscaler/modes/abstractmode.py` — `AbstractMode.__init__`,
    `AbstractMode.scale_direction` (range thresholds);
  * `autoscaler/modes/scalemem.py` — `ScaleByMemory.get_value`,
    `ScaleByMemory.get_mem_usage` (memory aggregation).

Python ints are modelled as `ℤ`, Python floats as `ℚ` (only ordered-field
comparisons and exact arithmetic on them occur in the modelled code), raised
exceptions as `Except String` / `Option String` values.
-/

namespace MarathonAutoscaler

/-- The two mutable counters `self.scale_up` and `self.cool_down` of the
`Autoscaler` object (Python ints). -/
structure HState where
  scale_up : ℤ
  cool_down : ℤ
deriving Repr, DecidableEq

/-- `Autoscaler.autoscale(direction)` from `marathon_autoscaler.py`, with the
actuation side effect made explicit.  `scaleAppOk` tells whether the call to
`scale_app` returns normally (`true`) or raises (`false`, e.g. the PUT to the
orchestrator fails).  Returns the state of the two counters when control
leaves `autoscale`, the list of `scale_app(is_up)` calls made (in order), and
whether an exception propagated out of `autoscale`.

Mirrors the source: on `direction == 1` the code first sets
`self.scale_up += 1; self.cool_down = 0`, then if `self.scale_up >=
self.scale_up_factor` it calls `self.scale_app(True)` and only afterwards
executes `self.scale_up = 0`; symmetrically for `direction == -1`; any other
direction resets both counters. -/
def autoscaleRun (scale_up_factor cool_down_factor : ℤ) (scaleAppOk : Bool)
    (s : HState) (direction : ℤ) : HState × List Bool × Bool :=
  if direction = 1 then
    let s1 : HState := ⟨s.scale_up + 1, 0⟩
    if s1.scale_up ≥ scale_up_factor then
      if scaleAppOk then (⟨0, 0⟩, [true], false)
      else (s1, [true], true)
    else (s1, [], false)
  else if direction = -1 then
    let s1 : HState := ⟨0, s.cool_down + 1⟩
    if s1.cool_down ≥ cool_down_factor then
      if scaleAppOk then (⟨0, 0⟩, [false], false)
      else (s1, [false], true)
    else (s1, [], false)
  else
    (⟨0, 0⟩, [], false)

/-- `Autoscaler.autoscale` when the actuation side effect succeeds: the new
counter state and the `scale_app` calls made. -/
def autoscale (scale_up_factor cool_down_factor : ℤ) (s : HState)
    (direction : ℤ) : HState × List Bool :=
  let r := autoscaleRun scale_up_factor cool_down_factor true s direction
  (r.1, r.2.1)

/-- Feeding a sequence of directions cycle by cycle into `autoscale`
(actuation succeeding), accumulating all `scale_app` calls. -/
def autoscaleSeq (scale_up_factor cool_down_factor : ℤ) (s : HState) :
    List ℤ → HState × List Bool
  | [] => (s, [])
  | d :: ds =>
    let r := autoscale scale_up_factor cool_down_factor s d
    let rest := autoscaleSeq scale_up_factor cool_down_factor r.1 ds
    (rest.1, r.2 ++ rest.2)

/-- `AbstractMode.scale_direction(value)` from `abstractmode.py`:
`1` if `value > self.max_range`, else `-1` if `value < self.min_range`,
else `0`. -/
def scale_direction (min_range max_range value : ℚ) : ℤ :=
  if value > max_range then 1
  else if value < min_range then -1
  else 0

/-- The target instance count computed by `Autoscaler.scale_app(is_up)`:
`math.ceil(app_instances * self.autoscale_multiplier)` capped at
`self.max_instances` when scaling up, `math.floor(app_instances /
self.autoscale_multiplier)` raised to `self.min_instances` when scaling
down. -/
def scale_app_target (autoscale_multiplier : ℚ) (min_instances max_instances : ℤ)
    (app_instances : ℤ) (up : Bool) : ℤ :=
  if up then
    let t := ⌈(app_instances : ℚ) * autoscale_multiplier⌉
    if t > max_instances then max_instances else t
  else
    let t := ⌊(app_instances : ℚ) / autoscale_multiplier⌋
    if t < min_instances then min_instances else t

/-- `Autoscaler.scale_app(is_up)`: issues the PUT to the orchestrator
(returning `some target`) iff `app_instances != target_instances`; otherwise
no request is made (`none`). -/
def scale_app (autoscale_multiplier : ℚ) (min_instances max_instances : ℤ)
    (app_instances : ℤ) (up : Bool) : Option ℤ :=
  let target := scale_app_target autoscale_multiplier min_instances
    max_instances app_instances up
  if app_instances ≠ target then some target else none

/-- One entry of the Mesos task statistics used by `ScaleByMemory`
(`task_stats['mem_rss_bytes']`, `task_stats['mem_limit_bytes']`). -/
structure TaskStats where
  mem_rss_bytes : ℤ
  mem_limit_bytes : ℤ
deriving Repr, DecidableEq

/-- The `ValueError` message raised by `ScaleByMemory.get_mem_usage` on a
zero memory limit: `"mem_limit_bytes for task ... agent ... is 0"` formatted
with the task and agent identifiers. -/
def zeroLimitMsg (task agent : String) : String :=
  "mem_limit_bytes for task " ++ task ++ " agent " ++ agent ++ " is 0"

/-- The `ValueError` message raised by `ScaleByMemory.get_value` when the app
has no task data: `"No marathon app task data found for app %s"`. -/
def noTaskDataMsg (app_name : String) : String :=
  "No marathon app task data found for app " ++ app_name

/-- `ScaleByMemory.get_mem_usage(task, agent)` from `scalemem.py`.
`stats` is the value of `self.agent_stats.get_task_stats(agent, task)`
(`none` when no statistics are available for the task).  When stats are
present and `mem_limit_bytes == 0` it raises `ValueError`; when present with
a non-zero limit it returns `100 * mem_rss_bytes / mem_limit_bytes`; when
absent it returns utilization `0`. -/
def get_mem_usage (task agent : String) (stats : Option TaskStats) :
    Except String ℚ :=
  match stats with
  | some ts =>
    if ts.mem_limit_bytes = 0 then .error (zeroLimitMsg task agent)
    else .ok (100 * ((ts.mem_rss_bytes : ℚ) / (ts.mem_limit_bytes : ℚ)))
  | none => .ok 0

/-- The `for task, agent in app_task_dict.items()` loop of
`ScaleByMemory.get_value`: collect `get_mem_usage` for every `(task, agent)`
pair into `app_mem_values`, propagating the first raised `ValueError`.
`stats agent task` models `self.agent_stats.get_task_stats(agent, task)`. -/
def collectMemValues (stats : String → String → Option TaskStats) :
    List (String × String) → Except String (List ℚ)
  | [] => .ok []
  | (task, agent) :: rest =>
    match get_mem_usage task agent (stats agent task) with
    | .error e => .error e
    | .ok v =>
      match collectMemValues stats rest with
      | .error e => .error e
      | .ok vs => .ok (v :: vs)

/-- `ScaleByMemory.get_value()` from `scalemem.py`: raises when
`app_task_dict` is empty, otherwise averages the per-task memory
utilizations (`sum(app_mem_values) / len(app_mem_values)`), propagating any
`ValueError` from `get_mem_usage`. -/
def get_value (app_name : String) (stats : String → String → Option TaskStats)
    (app_task_dict : List (String × String)) : Except String ℚ :=
  if app_task_dict = [] then .error (noTaskDataMsg app_name)
  else
    match collectMemValues stats app_task_dict with
    | .error e => .error e
    | .ok vs => .ok (vs.sum / (vs.length : ℚ))

/-- Observable outcome of one iteration of the `while True` loop in
`Autoscaler.run`. -/
structure CycleResult where
  /-- Counter state when the iteration ends. -/
  state : HState
  /-- The `scale_app(is_up)` calls made during the iteration. -/
  scale_app_calls : List Bool
  /-- Whether `self.autoscale(direction)` was reached. -/
  autoscale_called : Bool
  /-- Whether the `finally: self.timer()` sleep ran. -/
  slept : Bool
  /-- Whether an exception escaped the iteration. -/
  raised : Bool
deriving Repr, DecidableEq

/-- The `try` body of one iteration of `Autoscaler.run`, up to the point an
exception (if any) is raised.  `appExists` is `self.marathon_app.app_exists()`;
`sample` is the result of `self.scaling_mode.scale_direction()` (`Except.error`
when it raises, e.g. a `ValueError` out of `get_value`).  Returns the counter
state when control leaves the body, the `scale_app` calls made, whether
`autoscale` was called, and the exception that escaped the body, if any.
A missing app hits `continue`; a failed sample raises before `autoscale`. -/
def runCycleBody (scale_up_factor cool_down_factor : ℤ) (appExists : Bool)
    (sample : Except String ℤ) (scaleAppOk : Bool) (s : HState) :
    HState × List Bool × Bool × Option String :=
  if appExists = false then (s, [], false, none)
  else
    match sample with
    | .error e => (s, [], false, some e)
    | .ok d =>
      let r := autoscaleRun scale_up_factor cool_down_factor scaleAppOk s d
      (r.1, r.2.1, true, if r.2.2 then some "ActuationError" else none)

/-- One full iteration of the `while True` loop in `Autoscaler.run`: the
`try` body, the `except Exception` clause that logs and swallows any raised
exception, and the `finally: self.timer()` sleep (which also runs on the
`continue` path). -/
def runCycle (scale_up_factor cool_down_factor : ℤ) (appExists : Bool)
    (sample : Except String ℤ) (scaleAppOk : Bool) (s : HState) : CycleResult :=
  let b := runCycleBody scale_up_factor cool_down_factor appExists sample
    scaleAppOk s
  { state := b.1
    scale_app_calls := b.2.1
    autoscale_called := b.2.2.1
    slept := true
    raised := false }

/-- A value of `dimension["min"]` / `dimension["max"]` as tested by
`isinstance(..., list)` in `AbstractMode.__init__`: either a single number or
a Python list of numbers. -/
inductive DimValue where
  | scalar (v : ℚ)
  | values (vs : List ℚ)
deriving Repr, DecidableEq

/-- The `dimension` dictionary passed to `AbstractMode.__init__`, with its
`"min"` and `"max"` keys. -/
structure Dimension where
  min : DimValue
  max : DimValue
deriving Repr, DecidableEq

/-- Extraction of one bound in `AbstractMode.__init__`: a list contributes
its first element (`dimension["min"][0]`, an `IndexError` — `none` — on an
empty list), a scalar contributes itself. -/
def boundOf : DimValue → Option ℚ
  | .scalar v => some v
  | .values vs => vs.head?

/-- The `(self.min_range, self.max_range)` pair established by
`AbstractMode.__init__` for a given `dimension` argument: defaults
`(0.0, 100.0)` when `dimension is None`, otherwise each bound comes from the
corresponding key (`none` if extracting a bound raises). -/
def initRanges (dimension : Option Dimension) : Option (ℚ × ℚ) :=
  match dimension with
  | none => some (0, 100)
  | some d =>
    match boundOf d.min, boundOf d.max with
    | some mn, some mx => some (mn, mx)
    | _, _ => none

/-- The state invariant of the two hysteresis counters: both are
non-negative and at most one is non-zero. -/
def HInv (s : HState) : Prop :=
  0 ≤ s.scale_up ∧ 0 ≤ s.cool_down ∧ (s.scale_up = 0 ∨ s.cool_down = 0)

/-- A stats source for the spec example of C6: task `B` reports
`rss = 0, limit = 0`, every other task reports `rss = 50, limit = 100`. -/
def statsZeroLimitB : String → String → Option TaskStats :=
  fun _ task => if task = "B" then some ⟨0, 0⟩ else some ⟨50, 100⟩

/-- A stats source with no statistics available for any task. -/
def statsAbsent : String → String → Option TaskStats := fun _ _ => none

/-!  Theorems about the embedded code. -/

/-- C3: for every mode with `min_range ≤ max_range` and every sample `v`,
`scale_direction` returns `1` iff `v > max_range`, `-1` iff `v < min_range`,
and `0` otherwise; in particular `v = min_range` and `v = max_range` both
yield `0`. -/
theorem scale_direction_trichotomy (min_range max_range v : ℚ)
    (h : min_range ≤ max_range) :
    (scale_direction min_range max_range v = 1 ↔ max_range < v) ∧
    (scale_direction min_range max_range v = -1 ↔ v < min_range) ∧
    (scale_direction min_range max_range v = 0 ↔
      min_range ≤ v ∧ v ≤ max_range) ∧
    scale_direction min_range max_range min_range = 0 ∧
    scale_direction min_range max_range max_range = 0 := by
  unfold scale_direction
  refine ⟨?_, ?_, ?_, ?_, ?_⟩ <;> split_ifs <;>
    simp_all <;> linarith

/-- Witness for `scale_direction_trichotomy` at `min_range = 20`,
`max_range = 80`, `v = 80`. -/
theorem scale_direction_trichotomy_witness :
    (20 : ℚ) ≤ 80 ∧
    ((scale_direction 20 80 80 = 1 ↔ (80 : ℚ) < 80) ∧
     (scale_direction 20 80 80 = -1 ↔ (80 : ℚ) < 20) ∧
     (scale_direction 20 80 80 = 0 ↔ (20 : ℚ) ≤ 80 ∧ (80 : ℚ) ≤ 80) ∧
     scale_direction 20 80 20 = 0 ∧
     scale_direction 20 80 80 = 0) :=
  ⟨by norm_num, scale_direction_trichotomy 20 80 80 (by norm_num)⟩

/-- C4: `scale_app(True)` targets `ceil(c * multiplier)` clamped down to
`max_instances`, `scale_app(False)` targets `floor(c / multiplier)` clamped
up to `min_instances`, the PUT is issued iff the target differs from the
current count, and the spec examples `c = 10, m = 2, max = 15 ↦ 15` and
`c = 4, m = 2, min = 3 ↦ 3` hold. -/
theorem scale_app_postcondition (m : ℚ) (mn mx c : ℤ) :
    scale_app_target m mn mx c true = min ⌈(c : ℚ) * m⌉ mx ∧
    scale_app_target m mn mx c false = max ⌊(c : ℚ) / m⌋ mn ∧
    (∀ up : Bool, scale_app m mn mx c up ≠ none ↔
      scale_app_target m mn mx c up ≠ c) ∧
    (∀ up : Bool, ∀ t : ℤ, scale_app m mn mx c up = some t →
      t = scale_app_target m mn mx c up) ∧
    scale_app_target 2 1 15 10 true = 15 ∧
    scale_app_target 2 3 100 4 false = 3 := by
  have hup : scale_app_target m mn mx c true =
      (if ⌈(c : ℚ) * m⌉ > mx then mx else ⌈(c : ℚ) * m⌉) := rfl
  have hdn : scale_app_target m mn mx c false =
      (if ⌊(c : ℚ) / m⌋ < mn then mn else ⌊(c : ℚ) / m⌋) := rfl
  have hput : ∀ up : Bool, scale_app m mn mx c up =
      (if c ≠ scale_app_target m mn mx c up
       then some (scale_app_target m mn mx c up) else none) := fun _ => rfl
  refine ⟨?_, ?_, ?_, ?_, ?_, ?_⟩
  · rw [hup]; split_ifs with h <;> omega
  · rw [hdn]; split_ifs with h <;> omega
  · intro up
    rw [hput up]
    split_ifs with h <;> simp <;> omega
  · intro up t hp
    rw [hput up] at hp
    split_ifs at hp with h
    exact (Option.some_inj.mp hp).symm
  · norm_num [scale_app_target]
  · norm_num [scale_app_target]

/-- C10: `AbstractMode.__init__` defaults the range to `(0.0, 100.0)` when
`dimension` is `None`; when `dimension["min"]` or `dimension["max"]` is a
non-empty list only its first element becomes the bound and all further
elements are ignored. -/
theorem init_ranges_defaults_and_first (v w : ℚ) (vs ws : List ℚ)
    (dmin dmax : DimValue) :
    initRanges none = some (0, 100) ∧
    initRanges (some ⟨.values (v :: vs), dmax⟩) =
      initRanges (some ⟨.values [v], dmax⟩) ∧
    initRanges (some ⟨dmin, .values (w :: ws)⟩) =
      initRanges (some ⟨dmin, .values [w]⟩) ∧
    initRanges (some ⟨.values (v :: vs), .values (w :: ws)⟩) = some (v, w) := by
  refine ⟨rfl, ?_, ?_, rfl⟩ <;> simp [initRanges, boundOf]

/-- C5 (code behavior at the failing input): with `scale_up_factor = 1` and
`cool_down_factor = 1`, an ABOVE signal fires `scale_app(True)`; when that
call raises (actuation failure), `self.scale_up = 0` is skipped, the
exception propagates out of `autoscale`, and the fired streak counter is
left at `1 ≠ 0` — contradicting the claim that the counter never stays
non-zero after a firing. -/
theorem actuation_failure_keeps_counter :
    autoscaleRun 1 1 false ⟨0, 0⟩ 1 = (⟨1, 0⟩, [true], true) ∧
    (autoscaleRun 1 1 false ⟨0, 0⟩ 1).1.scale_up ≠ 0 := by
  decide

/-- `autoscaleSeq` splits over list append: the second segment starts from
the state the first segment ends in, and the call logs concatenate. -/
theorem autoscaleSeq_append (suf cdf : ℤ) (s : HState) (l1 l2 : List ℤ) :
    autoscaleSeq suf cdf s (l1 ++ l2) =
      ((autoscaleSeq suf cdf (autoscaleSeq suf cdf s l1).1 l2).1,
       (autoscaleSeq suf cdf s l1).2 ++
         (autoscaleSeq suf cdf (autoscaleSeq suf cdf s l1).1 l2).2) := by
  induction l1 generalizing s with
  | nil => simp [autoscaleSeq]
  | cons d ds ih => simp [autoscaleSeq, ih, List.append_assoc]

/-- One ABOVE cycle that does not reach the scale-up factor just increments
`scale_up` and zeroes `cool_down`. -/
theorem autoscale_above_no_fire (suf cdf : ℤ) (s : HState)
    (h : s.scale_up + 1 < suf) :
    autoscale suf cdf s 1 = (⟨s.scale_up + 1, 0⟩, []) := by
  have hlt : ¬ ((⟨s.scale_up + 1, 0⟩ : HState).scale_up ≥ suf) := by
    simp only [HState.mk.injEq]; omega
  simp [autoscale, autoscaleRun, hlt]

/-- Counting up below the scale-up factor: `k` ABOVE signals from
`⟨su, 0⟩` with `su + k < scale_up_factor` reach `⟨su + k, 0⟩` with no
`scale_app` call. -/
theorem autoscaleSeq_count_up (suf cdf : ℤ) (k : ℕ) (su : ℤ)
    (h : su + k < suf) :
    autoscaleSeq suf cdf ⟨su, 0⟩ (List.replicate k 1) = (⟨su + k, 0⟩, []) := by
  induction k generalizing su with
  | zero => simp [autoscaleSeq]
  | succ n ih =>
    rw [List.replicate_succ]
    have hstep : autoscale suf cdf ⟨su, 0⟩ 1 = (⟨su + 1, 0⟩, []) := by
      apply autoscale_above_no_fire
      push_cast at h ⊢
      omega
    have hrest : autoscaleSeq suf cdf ⟨su + 1, 0⟩ (List.replicate n 1) =
        (⟨su + 1 + n, 0⟩, []) := by
      apply ih
      push_cast at h ⊢
      omega
    have hgoal : su + 1 + (n : ℤ) = su + ((n : ℕ) + 1 : ℕ) := by
      push_cast
      ring
    simp only [autoscaleSeq, hstep, hrest]
    rw [← hgoal]
    simp

/-- C1: with `scale_up_factor ≥ 1`, `cool_down_factor ≥ 1` and counters
starting at `(0, 0)`, the first `scale_up_factor - 1` ABOVE signals make no
`scale_app` call and leave the streak at `scale_up_factor - 1`; exactly
`scale_up_factor` consecutive ABOVE signals call `scale_app(True)` exactly
once (hence on the last cycle) and leave `scale_up = 0`; and
`scale_up_factor - 1` ABOVE signals followed by one WITHIN signal never call
`scale_app` and leave both counters at `0`. -/
theorem hysteresis_firing (suf cdf : ℤ) (h1 : 1 ≤ suf) (h2 : 1 ≤ cdf) :
    autoscaleSeq suf cdf ⟨0, 0⟩ (List.replicate (suf.toNat - 1) 1) =
      (⟨suf - 1, 0⟩, []) ∧
    autoscaleSeq suf cdf ⟨0, 0⟩ (List.replicate suf.toNat 1) =
      (⟨0, 0⟩, [true]) ∧
    autoscaleSeq suf cdf ⟨0, 0⟩ (List.replicate (suf.toNat - 1) 1 ++ [0]) =
      (⟨0, 0⟩, []) := by
  have hcount : autoscaleSeq suf cdf ⟨0, 0⟩ (List.replicate (suf.toNat - 1) 1) =
      (⟨suf - 1, 0⟩, []) := by
    have := autoscaleSeq_count_up suf cdf (suf.toNat - 1) 0 (by omega)
    rw [this]
    congr 2
    omega
  have hfirestep : autoscale suf cdf ⟨suf - 1, 0⟩ 1 = (⟨0, 0⟩, [true]) := by
    have hge : (⟨suf - 1 + 1, 0⟩ : HState).scale_up ≥ suf := by
      simp only []
      omega
    simp [autoscale, autoscaleRun, hge]
  constructor
  · exact hcount
  constructor
  · have hrepl : List.replicate suf.toNat 1 =
        List.replicate (suf.toNat - 1) 1 ++ [(1 : ℤ)] := by
      rw [← List.replicate_succ']
      congr 1
      omega
    rw [hrepl, autoscaleSeq_append, hcount]
    simp [autoscaleSeq, hfirestep]
  · have hwithin : autoscale suf cdf ⟨suf - 1, 0⟩ 0 = (⟨0, 0⟩, []) := by
      simp [autoscale, autoscaleRun]
    rw [autoscaleSeq_append, hcount]
    simp [autoscaleSeq, hwithin]

/-- Witness for `hysteresis_firing` at `scale_up_factor = 2`,
`cool_down_factor = 1`. -/
theorem hysteresis_firing_witness :
    (1 : ℤ) ≤ 2 ∧ (1 : ℤ) ≤ 1 ∧
    (autoscaleSeq 2 1 ⟨0, 0⟩ (List.replicate ((2 : ℤ).toNat - 1) 1) =
       (⟨2 - 1, 0⟩, []) ∧
     autoscaleSeq 2 1 ⟨0, 0⟩ (List.replicate (2 : ℤ).toNat 1) =
       (⟨0, 0⟩, [true]) ∧
     autoscaleSeq 2 1 ⟨0, 0⟩ (List.replicate ((2 : ℤ).toNat - 1) 1 ++ [0]) =
       (⟨0, 0⟩, [])) :=
  ⟨by norm_num, by norm_num, hysteresis_firing 2 1 (by norm_num) (by norm_num)⟩

/-- A single `autoscale` call preserves the counter invariant, for any
direction. -/
theorem autoscale_step_inv (suf cdf : ℤ) (s : HState) (d : ℤ)
    (h : HInv s) :
    HInv (autoscale suf cdf s d).1 := by
  obtain ⟨h1, h2, h3⟩ := h
  unfold autoscale autoscaleRun HInv
  dsimp only
  split_ifs <;> simp <;> omega

/-- C2: starting from `(0, 0)`, after any sequence of `autoscale` calls with
directions in `{1, 0, -1}` both counters are non-negative and at most one is
non-zero; moreover an ABOVE signal zeroes `cool_down`, a BELOW signal
zeroes `scale_up`, and a WITHIN signal zeroes both. -/
theorem hysteresis_invariant (suf cdf : ℤ) (ds : List ℤ) (s : HState)
    (hd : ∀ d ∈ ds, d = 1 ∨ d = 0 ∨ d = -1) :
    HInv (autoscaleSeq suf cdf ⟨0, 0⟩ ds).1 ∧
    (autoscale suf cdf s 1).1.cool_down = 0 ∧
    (autoscale suf cdf s (-1)).1.scale_up = 0 ∧
    (autoscale suf cdf s 0).1 = ⟨0, 0⟩ := by
  refine ⟨?_, ?_, ?_, ?_⟩
  · have main : ∀ (l : List ℤ) (s0 : HState), HInv s0 →
        HInv (autoscaleSeq suf cdf s0 l).1 := by
      intro l
      induction l with
      | nil => intro s0 h0; simpa [autoscaleSeq] using h0
      | cons d rest ih =>
        intro s0 h0
        simp only [autoscaleSeq]
        exact ih _ (autoscale_step_inv suf cdf s0 d h0)
    exact main ds ⟨0, 0⟩ (by simp [HInv])
  · unfold autoscale autoscaleRun
    dsimp only
    norm_num
    split_ifs <;> rfl
  · unfold autoscale autoscaleRun
    dsimp only
    norm_num
    split_ifs <;> rfl
  · unfold autoscale autoscaleRun
    dsimp only
    norm_num

/-- Witness for `hysteresis_invariant` at `scale_up_factor = 2`,
`cool_down_factor = 2`, the signal sequence `[1, -1, 0, 1]` and the probe
state `⟨5, 0⟩`. -/
theorem hysteresis_invariant_witness :
    (∀ d ∈ [(1 : ℤ), -1, 0, 1], d = 1 ∨ d = 0 ∨ d = -1) ∧
    (HInv (autoscaleSeq 2 2 ⟨0, 0⟩ [1, -1, 0, 1]).1 ∧
     (autoscale 2 2 ⟨5, 0⟩ 1).1.cool_down = 0 ∧
     (autoscale 2 2 ⟨5, 0⟩ (-1)).1.scale_up = 0 ∧
     (autoscale 2 2 ⟨5, 0⟩ 0).1 = ⟨0, 0⟩) :=
  ⟨by decide, hysteresis_invariant 2 2 [1, -1, 0, 1] ⟨5, 0⟩ (by decide)⟩

/-- If some task in the list has stats present with a zero memory limit,
the collection loop raises the zero-limit `ValueError` of such a task (the
first offender encountered). -/
theorem collectMemValues_zero_limit (stats : String → String → Option TaskStats)
    (l : List (String × String)) (t a : String) (ts : TaskStats)
    (hmem : (t, a) ∈ l) (hstats : stats a t = some ts)
    (hzero : ts.mem_limit_bytes = 0) :
    ∃ t2 a2 ts2, (t2, a2) ∈ l ∧ stats a2 t2 = some ts2 ∧
      ts2.mem_limit_bytes = 0 ∧
      collectMemValues stats l = .error (zeroLimitMsg t2 a2) := by
  induction l with
  | nil => cases hmem
  | cons p rest ih =>
    obtain ⟨t0, a0⟩ := p
    by_cases hz : ∃ ts0, stats a0 t0 = some ts0 ∧ ts0.mem_limit_bytes = 0
    · obtain ⟨ts0, hs0, hz0⟩ := hz
      refine ⟨t0, a0, ts0, List.mem_cons_self _ _, hs0, hz0, ?_⟩
      simp [collectMemValues, get_mem_usage, hs0, hz0]
    · have hmem2 : (t, a) ∈ rest := by
        rcases List.mem_cons.mp hmem with heq | hm
        · exfalso
          apply hz
          obtain ⟨het, hea⟩ := Prod.mk.injEq .. ▸ heq
          exact ⟨ts, by rw [het, hea] at hstats; exact hstats, hzero⟩
        · exact hm
      obtain ⟨t2, a2, ts2, hm2, hs2, hz2, hcol⟩ := ih hmem2
      refine ⟨t2, a2, ts2, List.mem_cons_of_mem _ hm2, hs2, hz2, ?_⟩
      cases hs0 : stats a0 t0 with
      | none => simp [collectMemValues, get_mem_usage, hs0, hcol]
      | some ts0 =>
        have hnz : ¬ ts0.mem_limit_bytes = 0 := fun hzz => hz ⟨ts0, hs0, hzz⟩
        simp [collectMemValues, get_mem_usage, hs0, hnz, hcol]

/-- C6: whenever some task's stats are present with `mem_limit_bytes = 0`,
`get_value` fails with the zero-limit `ValueError` naming an offending task
and agent — the task is never silently averaged in as zero utilization. -/
theorem zero_limit_fault (app_name : String)
    (stats : String → String → Option TaskStats)
    (l : List (String × String)) (t a : String) (ts : TaskStats)
    (hmem : (t, a) ∈ l) (hstats : stats a t = some ts)
    (hzero : ts.mem_limit_bytes = 0) :
    ∃ t2 a2 ts2, (t2, a2) ∈ l ∧ stats a2 t2 = some ts2 ∧
      ts2.mem_limit_bytes = 0 ∧
      get_value app_name stats l = .error (zeroLimitMsg t2 a2) := by
  obtain ⟨t2, a2, ts2, hm2, hs2, hz2, hcol⟩ :=
    collectMemValues_zero_limit stats l t a ts hmem hstats hzero
  have hne : ¬ l = [] := by
    rintro rfl
    cases hmem
  refine ⟨t2, a2, ts2, hm2, hs2, hz2, ?_⟩
  simp [get_value, hne, hcol]

/-- Witness for `zero_limit_fault` on the spec example: task `A` with
`rss = 50, limit = 100`, task `B` with `rss = 0, limit = 0`. -/
theorem zero_limit_fault_witness :
    (("B", "ag") ∈ [("A", "ag"), ("B", "ag")] ∧
     statsZeroLimitB "ag" "B" = some ⟨0, 0⟩ ∧
     (⟨0, 0⟩ : TaskStats).mem_limit_bytes = 0) ∧
    ∃ t2 a2 ts2, (t2, a2) ∈ [("A", "ag"), ("B", "ag")] ∧
      statsZeroLimitB a2 t2 = some ts2 ∧ ts2.mem_limit_bytes = 0 ∧
      get_value "app" statsZeroLimitB [("A", "ag"), ("B", "ag")] =
        .error (zeroLimitMsg t2 a2) :=
  ⟨⟨by decide, by decide, by decide⟩,
   zero_limit_fault "app" statsZeroLimitB [("A", "ag"), ("B", "ag")]
     "B" "ag" ⟨0, 0⟩ (by decide) (by decide) (by decide)⟩

/-- Successful collection produces one utilization value per task. -/
theorem collectMemValues_length (stats : String → String → Option TaskStats)
    (l : List (String × String)) (vs : List ℚ)
    (h : collectMemValues stats l = .ok vs) :
    vs.length = l.length := by
  induction l generalizing vs with
  | nil =>
    simp only [collectMemValues] at h
    cases h
    rfl
  | cons p rest ih =>
    obtain ⟨t0, a0⟩ := p
    simp only [collectMemValues] at h
    cases hu : get_mem_usage t0 a0 (stats a0 t0) with
    | error e => rw [hu] at h; cases h
    | ok v =>
      rw [hu] at h
      cases hc : collectMemValues stats rest with
      | error e => rw [hc] at h; cases h
      | ok ws =>
        rw [hc] at h
        cases h
        simp [ih ws hc]

/-- C8: for an empty task/agent map `get_value` fails with the no-task-data
`ValueError` before any averaging, and whenever `get_value` succeeds the
average was taken over one value per task with a positive denominator —
division by zero is unreachable. -/
theorem empty_task_set_safety (app_name : String)
    (stats : String → String → Option TaskStats)
    (l : List (String × String)) (v : ℚ)
    (h : get_value app_name stats l = .ok v) :
    get_value app_name stats [] = .error (noTaskDataMsg app_name) ∧
    0 < l.length ∧
    ∃ vs, collectMemValues stats l = .ok vs ∧ vs.length = l.length ∧
      0 < vs.length ∧ v = vs.sum / (vs.length : ℚ) := by
  refine ⟨rfl, ?_⟩
  have hne : ¬ l = [] := by
    rintro rfl
    rw [get_value] at h
    simp at h
  rw [get_value, if_neg hne] at h
  cases hc : collectMemValues stats l with
  | error e => rw [hc] at h; cases h
  | ok vs =>
    rw [hc] at h
    cases h
    have hlen := collectMemValues_length stats l vs hc
    have hpos : 0 < l.length := List.length_pos.mpr hne
    exact ⟨hpos, vs, rfl, hlen, hlen ▸ hpos, rfl⟩

/-- Witness for `empty_task_set_safety` with one task whose stats are
absent. -/
theorem empty_task_set_safety_witness :
    get_value "app" statsAbsent [("A", "ag")] = .ok 0 ∧
    (get_value "app" statsAbsent [] = .error (noTaskDataMsg "app") ∧
     0 < [("A", "ag")].length ∧
     ∃ vs, collectMemValues statsAbsent [("A", "ag")] = .ok vs ∧
       vs.length = [("A", "ag")].length ∧ 0 < vs.length ∧
       (0 : ℚ) = vs.sum / (vs.length : ℚ)) :=
  have h : get_value "app" statsAbsent [("A", "ag")] = .ok 0 := by
    simp +decide [get_value, collectMemValues, get_mem_usage, statsAbsent]
  ⟨h, empty_task_set_safety "app" statsAbsent [("A", "ag")] 0 h⟩

/-- When every task's stats are absent, the collection loop returns one zero
utilization per task. -/
theorem collectMemValues_all_absent (stats : String → String → Option TaskStats)
    (l : List (String × String))
    (habs : ∀ p ∈ l, stats p.2 p.1 = none) :
    collectMemValues stats l = .ok (List.replicate l.length 0) := by
  induction l with
  | nil => rfl
  | cons p rest ih =>
    obtain ⟨t0, a0⟩ := p
    have h0 : stats a0 t0 = none := habs (t0, a0) (List.mem_cons_self _ _)
    have hrest := ih (fun q hq => habs q (List.mem_cons_of_mem _ hq))
    simp [collectMemValues, get_mem_usage, h0, hrest, List.replicate_succ]

/-- C9: a task whose stats lookup returns absent contributes utilization `0`
instead of raising, and when every task's stats are absent (and the task
list is non-empty) `get_value` returns `0` without error. -/
theorem missing_stats_as_zero (app_name t a : String)
    (stats : String → String → Option TaskStats)
    (l : List (String × String))
    (hne : ¬ l = []) (habs : ∀ p ∈ l, stats p.2 p.1 = none) :
    get_mem_usage t a none = .ok 0 ∧
    get_value app_name stats l = .ok 0 := by
  refine ⟨rfl, ?_⟩
  rw [get_value, if_neg hne, collectMemValues_all_absent stats l habs]
  simp

/-- Witness for `missing_stats_as_zero` with two tasks, both without
stats. -/
theorem missing_stats_as_zero_witness :
    (¬ ([("A", "ag"), ("B", "ag")] : List (String × String)) = [] ∧
     (∀ p ∈ [("A", "ag"), ("B", "ag")], statsAbsent p.2 p.1 = none)) ∧
    (get_mem_usage "A" "ag" none = .ok 0 ∧
     get_value "app" statsAbsent [("A", "ag"), ("B", "ag")] = .ok 0) :=
  ⟨⟨by decide, by decide⟩,
   missing_stats_as_zero "app" "A" "ag" statsAbsent
     [("A", "ag"), ("B", "ag")] (by decide) (by decide)⟩

/-- C7: in every iteration of `Autoscaler.run` where the application is not
found or the scaling mode's sampling raises, `autoscale` is not called, the
counters are unchanged, no `scale_app` call (hence no actuation) occurs, the
`finally` sleep still runs and no exception escapes; moreover for every
input whatsoever the iteration sleeps and lets no exception escape, so the
next iteration always runs. -/
theorem cycle_skip_on_failure (scale_up_factor cool_down_factor : ℤ)
    (appExists ae scaleAppOk ok2 : Bool) (sample sm : Except String ℤ)
    (s s2 : HState)
    (h : appExists = false ∨ ∃ e, sample = .error e) :
    runCycle scale_up_factor cool_down_factor appExists sample scaleAppOk s =
      { state := s, scale_app_calls := [], autoscale_called := false,
        slept := true, raised := false } ∧
    (runCycle scale_up_factor cool_down_factor ae sm ok2 s2).slept = true ∧
    (runCycle scale_up_factor cool_down_factor ae sm ok2 s2).raised = false := by
  refine ⟨?_, rfl, rfl⟩
  rcases h with hae | ⟨e, herr⟩
  · subst hae
    rfl
  · subst herr
    cases appExists <;> rfl

/-- Witness for `cycle_skip_on_failure`: a missing application with counters
at `⟨0, 1⟩`, probing the universally quantified part at an existing
application with a normal sample. -/
theorem cycle_skip_on_failure_witness :
    ((false = false) ∨ ∃ e, (Except.ok (1 : ℤ) : Except String ℤ) = .error e) ∧
    (runCycle 2 2 false (.ok 1) true ⟨0, 1⟩ =
       { state := ⟨0, 1⟩, scale_app_calls := [], autoscale_called := false,
         slept := true, raised := false } ∧
     (runCycle 2 2 true (.ok 1) true ⟨0, 1⟩).slept = true ∧
     (runCycle 2 2 true (.ok 1) true ⟨0, 1⟩).raised = false) :=
  ⟨Or.inl rfl,
   cycle_skip_on_failure 2 2 false true true true (.ok 1) (.ok 1)
     ⟨0, 1⟩ ⟨0, 1⟩ (Or.inl rfl)⟩

end MarathonAutoscaler
